import Mathlib

/-!
Verification of the clothing-application geometry pipeline of
`apply_clothing.py`: torso region selection, cylindrical UV projection,
texture binding with its flat-color fallback, surface offsetting, texture
image resizing, and scene composition.  Float arithmetic of the source is
embedded as exact rational (or real, where square roots and arctangents
occur) arithmetic; numpy's vectorised operations become list maps and
filters.
-/

namespace VCBackend

/-- A 3-D point with exact rational coordinates, standing for one row of a
float vertex array.  Components are x, y, z. -/
structure Vec3 where
  x : ℚ
  y : ℚ
  z : ℚ
  deriving DecidableEq, Repr

/-- Componentwise minimum corner of the bounding box of a vertex list, the
lower row of `body.bounds` (source line 74); the empty list is mapped to the
origin (the source never reaches that case: the body mesh has faces). -/
def boundsMin (verts : List Vec3) : Vec3 :=
  match verts with
  | [] => ⟨0, 0, 0⟩
  | v :: vs => vs.foldl (fun a b => ⟨min a.x b.x, min a.y b.y, min a.z b.z⟩) v

/-- Componentwise maximum corner of the bounding box of a vertex list, the
upper row of `body.bounds` (source line 74). -/
def boundsMax (verts : List Vec3) : Vec3 :=
  match verts with
  | [] => ⟨0, 0, 0⟩
  | v :: vs => vs.foldl (fun a b => ⟨max a.x b.x, max a.y b.y, max a.z b.z⟩) v

/-- Vertical torso band of the primary mask (source lines 81-82): the
world-space interval from `min_y + torso_min*height` to
`min_y + torso_max*height`. -/
def primaryBand (minY height torsoMin torsoMax : ℚ) : ℚ × ℚ :=
  (minY + torsoMin * height, minY + torsoMax * height)

/-- Vertical band of the fallback mask (source lines 101-102), with the fixed
fractions 0.35 and 0.90 of the bounding-box height. -/
def fallbackBand (minY height : ℚ) : ℚ × ℚ :=
  (minY + 35/100 * height, minY + 90/100 * height)

/-- Radial limit of the region selector (source line 90):
`max(extent[0], extent[2]) * 0.55`, where `extent = bbox_max - bbox_min`. -/
def radialLimit (bmin bmax : Vec3) : ℚ :=
  max (bmax.x - bmin.x) (bmax.z - bmin.z) * (55/100)

/-- Primary torso mask (source lines 92-98): keep the vertices whose Y lies in
the primary band and whose squared horizontal distance from the bounding-box
centre is at most the squared radial limit. -/
def primarySel (verts : List Vec3) (torsoMin torsoMax : ℚ) : List Vec3 :=
  let bmin := boundsMin verts
  let bmax := boundsMax verts
  let band := primaryBand bmin.y (bmax.y - bmin.y) torsoMin torsoMax
  let cx := (bmin.x + bmax.x) / 2
  let cz := (bmin.z + bmax.z) / 2
  let rl := radialLimit bmin bmax
  verts.filter (fun v =>
    decide (band.1 ≤ v.y) && decide (v.y ≤ band.2) &&
    decide ((v.x - cx) * (v.x - cx) + (v.z - cz) * (v.z - cz) ≤ rl * rl))

/-- Fallback torso mask (source lines 100-104): only the widened vertical band
with the fixed fractions, with no radial condition. -/
def fallbackSel (verts : List Vec3) : List Vec3 :=
  let bmin := boundsMin verts
  let bmax := boundsMax verts
  let band := fallbackBand bmin.y (bmax.y - bmin.y)
  verts.filter (fun v => decide (band.1 ≤ v.y) && decide (v.y ≤ band.2))

/-- Structured failure reasons of the embedded pipeline stages. -/
inductive PipelineError where
  | insufficientRegion
  deriving DecidableEq, Repr

/-- Torso region selection (source lines 92-108): the primary mask first; if
it selects fewer than 10 vertices, one fallback mask with the fixed band and
no radial condition; if the fallback also selects fewer than 10 vertices the
stage fails (exit code 8, `InsufficientRegionError` of the specification). -/
def selectTorso (verts : List Vec3) (torsoMin torsoMax : ℚ) :
    Except PipelineError (List Vec3) :=
  let p := primarySel verts torsoMin torsoMax
  if p.length < 10 then
    let f := fallbackSel verts
    if f.length < 10 then .error .insufficientRegion else .ok f
  else .ok p

/-- Texture image resizing (source lines 146-150): if the larger dimension
exceeds 2048 pixels, both dimensions are multiplied by `2048 / max(w, h)` and
truncated to integers (Python `int` truncates toward zero, which on these
nonnegative values is the floor); otherwise the image keeps its size. -/
def resizeDims (w h : ℕ) : ℕ × ℕ :=
  if 2048 < max w h then
    let scale : ℚ := 2048 / (max w h : ℚ)
    ((⌊(w : ℚ) * scale⌋).toNat, (⌊(h : ℚ) * scale⌋).toNat)
  else (w, h)

/-- Body vertex list realising the bounding box X ∈ [-30,30], Y ∈ [0,180],
Z ∈ [-20,20] of the end-to-end example of the specification, together with a
torso vertex at horizontal distance 30 from the centre. -/
def exampleBodyVerts : List Vec3 :=
  [⟨-30, 0, -20⟩, ⟨30, 180, 20⟩, ⟨30, 100, 0⟩]

/-- Vertex list whose primary mask at the default thresholds is empty while
the fallback band captures ten vertices. -/
def fallbackExampleVerts : List Vec3 :=
  ⟨0, 0, 0⟩ :: ⟨0, 100, 0⟩ :: List.replicate 10 ⟨0, 36, 0⟩

/-- Adding a geometry to a scene under an explicit node name, following the
scene-graph semantics of the trimesh library used by the source (not part of
this repository): `Scene.add_geometry` registers the node under `node_name`,
silently replacing any existing node of that name, and raises no error on a
name collision. -/
def addGeometry {G : Type} (scene : List (String × G)) (g : G) (nodeName : String) :
    List (String × G) :=
  scene.filter (fun p => decide (p.1 ≠ nodeName)) ++ [(nodeName, g)]

/-- Scene composition (source lines 181-192): walk the input scene's nodes in
order; the chosen body node is re-added as the coerced body mesh under the
fixed node name "body", every other node under its original name; finally the
clothing geometry is added under the fixed node name "cloth". -/
def composeScene {G : Type} (inScene : List (String × G)) (bodyName : String)
    (body cloth : G) : List (String × G) :=
  addGeometry
    (inScene.foldl
      (fun acc p =>
        if p.1 = bodyName then addGeometry acc body "body"
        else addGeometry acc p.2 p.1)
      [])
    cloth "cloth"

/-- Pointwise action of the composition loop on one input node: the body node
becomes ("body", body), any other node is kept as is. -/
def replaceBody {G : Type} (bodyName : String) (body : G) (p : String × G) :
    String × G :=
  if p.1 = bodyName then ("body", body) else p

/-- A 3-D point with real coordinates, for the stages whose float arithmetic
involves square roots or arctangents.  Components are x, y, z. -/
structure RVec3 where
  x : ℝ
  y : ℝ
  z : ℝ

/-- Minimum of a list of reals (numpy `min` over a nonempty array); the empty
list is mapped to 0, a case the source never evaluates. -/
noncomputable def listMin : List ℝ → ℝ
  | [] => 0
  | a :: t => t.foldl min a

/-- Maximum of a list of reals (numpy `max` over a nonempty array); the empty
list is mapped to 0, a case the source never evaluates. -/
noncomputable def listMax : List ℝ → ℝ
  | [] => 0
  | a :: t => t.foldl max a

/-- Two-argument arctangent with numpy's `arctan2` conventions: the result
lies in [-π, π] and `atan2 0 0 = 0`. -/
noncomputable def atan2 (y x : ℝ) : ℝ :=
  if 0 < x then Real.arctan (y / x)
  else if x < 0 then
    (if 0 ≤ y then Real.arctan (y / x) + Real.pi else Real.arctan (y / x) - Real.pi)
  else
    (if 0 < y then Real.pi / 2 else if y < 0 then -(Real.pi / 2) else 0)

/-- Cylindrical UV coordinates of one clothing-mesh vertex (source lines
128-141): `u = (atan2(z - cz, x - cx) + pi) / (2 pi)` and
`v = (y - v_min) / max(1e-6, v_max - v_min)`, the vertical extrema being
taken over the clothing mesh's own vertices. -/
noncomputable def uvFormula (verts : List RVec3) (cx cz : ℝ) (p : RVec3) : ℝ × ℝ :=
  ((atan2 (p.z - cz) (p.x - cx) + Real.pi) / (2 * Real.pi),
   (p.y - listMin (verts.map RVec3.y)) /
     max (1 / 1000000) (listMax (verts.map RVec3.y) - listMin (verts.map RVec3.y)))

/-- Per-vertex cylindrical UV projection of the clothing mesh (the
`uv = np.column_stack((u, v))` of source line 141). -/
noncomputable def uvProject (verts : List RVec3) (cx cz : ℝ) : List (ℝ × ℝ) :=
  verts.map (uvFormula verts cx cz)

/-- Shape of the argument handed to trimesh's `apply_translation`: a single
3-vector, or the 2-D per-vertex array the source builds at line 168. -/
inductive TranslationArg where
  | single (v : RVec3)
  | perVertex (rows : List RVec3)

/-- Modelled from the trimesh library contract (not part of this repository):
`Trimesh.apply_translation` accepts one translation vector of shape (3,) and
applies it to every vertex; any other argument shape — in particular the 2-D
(N,3) array of per-vertex translations — raises `ValueError` before any
vertex moves. -/
def applyTranslation (verts : List RVec3) (t : TranslationArg) :
    Except String (List RVec3) :=
  match t with
  | .single v => .ok (verts.map (fun p => ⟨p.x + v.x, p.y + v.y, p.z + v.z⟩))
  | .perVertex _ => .error "Translation must be (3,)"

/-- Surface offset step (source lines 164-175): attempt to displace the
clothing mesh by `vertex_normals * (0.005 * max(extent))` through
`apply_translation`; when that raises, displace every vertex along the
direction from (cx, v_min, cz) to it, normalised — a zero norm is replaced by
1 — and scaled by `0.003 * max(extent)`. -/
noncomputable def offsetStep (cmVerts : List RVec3) (normals : List RVec3)
    (maxExtent cx cz : ℝ) : List RVec3 :=
  match applyTranslation cmVerts
      (.perVertex (normals.map (fun n =>
        ⟨n.x * (5/1000 * maxExtent), n.y * (5/1000 * maxExtent),
         n.z * (5/1000 * maxExtent)⟩))) with
  | .ok vs => vs
  | .error _ =>
    let vMin := listMin (cmVerts.map RVec3.y)
    cmVerts.map (fun p =>
      let dx := p.x - cx
      let dy := p.y - vMin
      let dz := p.z - cz
      let nrm0 := Real.sqrt (dx ^ 2 + dy ^ 2 + dz ^ 2)
      let nrm := if nrm0 = 0 then 1 else nrm0
      ⟨p.x + dx / nrm * (3/1000 * maxExtent),
       p.y + dy / nrm * (3/1000 * maxExtent),
       p.z + dz / nrm * (3/1000 * maxExtent)⟩)

/-- Visual payload attached to the clothing mesh: a texture with per-vertex
UVs, or flat per-vertex RGBA colors. -/
inductive ClothVisual where
  | textured (uv : List (ℝ × ℝ))
  | colored (colors : List (ℕ × ℕ × ℕ × ℕ))

/-- The clothing geometry: vertices, triangular faces, visual, and the
metadata name used at export. -/
structure ClothedMesh where
  vertices : List RVec3
  faces : List (ℕ × ℕ × ℕ)
  visual : ClothVisual
  meta : String

/-- Outcome of the external texture-visual constructor
(`TextureVisuals(uv=uv, image=image)` of source line 154): success carrying
the bound per-vertex UVs, or a raised error with its message. -/
inductive TexResult where
  | ok (uv : List (ℝ × ℝ))
  | failed (reason : String)

/-- Texture binding with its degradation path (source lines 152-162): on
success the textured visual is attached to the clothing geometry; on failure
the same geometry instead receives the uniform gray vertex color
(200, 200, 200, 255), one entry per clothing-mesh vertex, and the pipeline
continues with that mesh rather than failing. -/
def buildTexturedCloth (tv : TexResult) (cmVerts : List RVec3)
    (faces : List (ℕ × ℕ × ℕ)) : ClothedMesh :=
  match tv with
  | .ok uv => ⟨cmVerts, faces, .textured uv, ""⟩
  | .failed _ =>
    ⟨cmVerts, faces, .colored (List.replicate cmVerts.length (200, 200, 200, 255)), ""⟩

/-- Metadata naming of the clothing geometry (source line 178):
`cloth_<garment type>`. -/
def nameClothMesh (m : ClothedMesh) (ty : String) : ClothedMesh :=
  { m with meta := "cloth_" ++ ty }

/-- C3, counterexample: on the example bounding box (X extent 60, Z extent
40) the radial limit computed by the source is `max(60, 40) * 0.55 = 33`, not
approximately 16.5 as the claim's formula 0.55 × (larger extent / 2) gives:
the two differ by 16.5, far outside any floating tolerance. -/
theorem radial_limit_example_counterexample :
    radialLimit (boundsMin exampleBodyVerts) (boundsMax exampleBodyVerts) = 33 ∧
    ¬ (|(33 : ℚ) - 33/2| ≤ 1) := by
  constructor
  · have h1 : boundsMin exampleBodyVerts = ⟨-30, 0, -20⟩ := by
      norm_num [boundsMin, exampleBodyVerts, min_def]
    have h2 : boundsMax exampleBodyVerts = ⟨30, 180, 20⟩ := by
      norm_num [boundsMax, exampleBodyVerts, max_def]
    rw [h1, h2, radialLimit]
    norm_num
  · rw [abs_le]
    norm_num

/-- C3 (amended): the region selector's radial limit equals 0.55 times the
larger of the FULL X and Z bounding-box extents, not 0.55 times half of it;
on the example body (X ∈ [-30,30], Z ∈ [-20,20]) the limit is 33, and a torso
vertex at horizontal distance 30 from the centre — beyond the claimed limit of
16.5 — passes the primary mask. -/
theorem radial_limit_amended (bmin bmax : Vec3) :
    radialLimit bmin bmax = 55/100 * max (bmax.x - bmin.x) (bmax.z - bmin.z) ∧
    ⟨30, 100, 0⟩ ∈ primarySel exampleBodyVerts (40/100) (85/100) := by
  constructor
  · rw [radialLimit]; ring
  · have h1 : boundsMin exampleBodyVerts = ⟨-30, 0, -20⟩ := by
      norm_num [boundsMin, exampleBodyVerts, min_def]
    have h2 : boundsMax exampleBodyVerts = ⟨30, 180, 20⟩ := by
      norm_num [boundsMax, exampleBodyVerts, max_def]
    rw [primarySel, h1, h2]
    simp only [radialLimit]
    refine List.mem_filter.mpr ⟨by simp [exampleBodyVerts], ?_⟩
    norm_num [primaryBand, max_def]

/-- C4: region selection fails with the insufficient-region error exactly when
both the primary mask and the single fallback mask select fewer than 10
vertices; when the primary mask selects at least 10 vertices its selection is
the result, and otherwise the result is the fallback selection — which by
definition uses the fixed fractions 0.35 and 0.90 and carries no radial
condition — as soon as that selects at least 10 vertices. -/
theorem region_selection_failure_iff (verts : List Vec3) (torsoMin torsoMax : ℚ) :
    (selectTorso verts torsoMin torsoMax = .error .insufficientRegion ↔
      (primarySel verts torsoMin torsoMax).length < 10 ∧
        (fallbackSel verts).length < 10) ∧
    (10 ≤ (primarySel verts torsoMin torsoMax).length →
      selectTorso verts torsoMin torsoMax = .ok (primarySel verts torsoMin torsoMax)) ∧
    ((primarySel verts torsoMin torsoMax).length < 10 →
      10 ≤ (fallbackSel verts).length →
      selectTorso verts torsoMin torsoMax = .ok (fallbackSel verts)) := by
  refine ⟨?_, ?_, ?_⟩ <;> simp only [selectTorso] <;> split_ifs with h1 h2 <;>
    simp_all

/-- Witness for C4 at a concrete vertex list: the primary mask at the default
thresholds selects nothing, the fallback band captures the ten vertices at
height 36, and region selection succeeds with the fallback selection. -/
theorem region_selection_failure_iff_witness :
    (primarySel fallbackExampleVerts (40/100) (85/100)).length < 10 ∧
    10 ≤ (fallbackSel fallbackExampleVerts).length ∧
    selectTorso fallbackExampleVerts (40/100) (85/100) =
      .ok (fallbackSel fallbackExampleVerts) := by
  have hb1 : boundsMin fallbackExampleVerts = ⟨0, 0, 0⟩ := by
    norm_num [boundsMin, fallbackExampleVerts, min_def, List.replicate]
  have hb2 : boundsMax fallbackExampleVerts = ⟨0, 100, 0⟩ := by
    norm_num [boundsMax, fallbackExampleVerts, max_def, List.replicate]
  have hp : (primarySel fallbackExampleVerts (40/100) (85/100)).length < 10 := by
    rw [primarySel, hb1, hb2]
    norm_num [radialLimit, primaryBand, fallbackExampleVerts, List.replicate,
      List.filter, max_def]
  have hf : 10 ≤ (fallbackSel fallbackExampleVerts).length := by
    rw [fallbackSel, hb1, hb2]
    norm_num [fallbackBand, fallbackExampleVerts, List.replicate, List.filter]
  exact ⟨hp, hf,
    (region_selection_failure_iff fallbackExampleVerts (40/100) (85/100)).2.2 hp hf⟩

/-- C7, counterexample: with torso_min = 0 and torso_max = 1 (both in [0,1]),
min_y = 0 and height = 100, the primary band is [0, 100] while the fallback
band is [35, 90]; the height y = 0 lies in the primary band but below the
fallback band, so the fallback band is not a superset of the primary band. -/
theorem fallback_band_not_superset :
    (primaryBand 0 100 0 1).1 ≤ 0 ∧ (0:ℚ) ≤ (primaryBand 0 100 0 1).2 ∧
    ¬ ((fallbackBand 0 100).1 ≤ 0) := by
  refine ⟨?_, ?_, ?_⟩ <;> norm_num [primaryBand, fallbackBand]

/-- C7 (amended): the fallback band [min_y + 0.35·h, min_y + 0.90·h] contains
the primary band [min_y + torso_min·h, min_y + torso_max·h] for every
nonnegative height exactly in the regime 0.35 ≤ torso_min and
torso_max ≤ 0.90 — which holds at the default thresholds (0.40, 0.85) but not
for every pair in [0,1]. -/
theorem fallback_band_superset (minY height torsoMin torsoMax : ℚ)
    (hh : 0 ≤ height) (hmin : 35/100 ≤ torsoMin) (hmax : torsoMax ≤ 90/100) :
    ∀ y : ℚ, (primaryBand minY height torsoMin torsoMax).1 ≤ y →
      y ≤ (primaryBand minY height torsoMin torsoMax).2 →
      (fallbackBand minY height).1 ≤ y ∧ y ≤ (fallbackBand minY height).2 := by
  intro y h1 h2
  simp only [primaryBand, fallbackBand] at h1 h2 ⊢
  constructor
  · nlinarith
  · nlinarith

/-- Witness for C7 at the default thresholds: height 180, min_y 0, and the
band member y = 100 of the primary band [72, 153] lies in the fallback band
[63, 162]. -/
theorem fallback_band_superset_witness :
    (0:ℚ) ≤ 180 ∧ (35/100 : ℚ) ≤ 40/100 ∧ (85/100 : ℚ) ≤ 90/100 ∧
    ((fallbackBand 0 180).1 ≤ 100 ∧ (100:ℚ) ≤ (fallbackBand 0 180).2) :=
  ⟨by norm_num, by norm_num, by norm_num,
    fallback_band_superset 0 180 (40/100) (85/100) (by norm_num) (by norm_num)
      (by norm_num) 100 (by norm_num [primaryBand]) (by norm_num [primaryBand])⟩

/-- C9, counterexample: the 2049 × 3 image is resized to 2048 × 2 by the
truncating scale step, and the output aspect proportion 1024 differs from the
input's 683 by about 50 %, far beyond 1 %. -/
theorem resize_aspect_counterexample :
    resizeDims 2049 3 = (2048, 2) ∧
    ¬ (|(2048 : ℚ) / 2 / ((2049 : ℚ) / 3) - 1| ≤ 1/100) := by
  constructor
  · rw [resizeDims]
    norm_num [max_def]
    exact ⟨rfl, rfl⟩
  · rw [show (2048:ℚ) / 2 / ((2049:ℚ) / 3) - 1 = 341/683 by norm_num,
      abs_of_nonneg (by norm_num : (0:ℚ) ≤ 341/683)]
    norm_num

/-- Helper: a positive rational x whose floor n is at least 100 has both x/n
and n/x within 1/100 of 1. -/
lemma floor_ratio_close (x : ℚ) (n : ℕ) (hn : n = (⌊x⌋).toNat) (h100 : 100 ≤ n) :
    |x / (n:ℚ) - 1| ≤ 1/100 ∧ |(n:ℚ) / x - 1| ≤ 1/100 := by
  have hfl : ⌊x⌋ = (n:ℤ) := by omega
  have hnx : (n:ℚ) ≤ x := by
    have h := Int.floor_le x
    rw [hfl] at h
    exact_mod_cast h
  have hx1 : x < (n:ℚ) + 1 := by
    have h := Int.lt_floor_add_one x
    rw [hfl] at h
    exact_mod_cast h
  have hn100 : (100:ℚ) ≤ (n:ℚ) := by exact_mod_cast h100
  have hn0 : (0:ℚ) < (n:ℚ) := by linarith
  have hx0 : (0:ℚ) < x := lt_of_lt_of_le hn0 hnx
  constructor
  · rw [div_sub_one (ne_of_gt hn0), abs_div,
      abs_of_nonneg (by linarith : (0:ℚ) ≤ x - (n:ℚ)), abs_of_pos hn0,
      div_le_iff₀ hn0]
    linarith
  · rw [div_sub_one (ne_of_gt hx0), abs_div,
      abs_of_nonpos (by linarith : (n:ℚ) - x ≤ 0), abs_of_pos hx0, neg_sub,
      div_le_iff₀ hx0]
    linarith

/-- Helper: scaling the largest dimension by 2048 over itself and truncating
gives exactly 2048. -/
lemma floor_scale_max (m : ℚ) (hm : 0 < m) :
    (⌊m * (2048 / m)⌋).toNat = 2048 := by
  rw [mul_div_cancel₀ _ (ne_of_gt hm)]
  rw [show ((2048:ℚ)) = ((2048:ℤ):ℚ) by norm_num, Int.floor_intCast]
  rfl

/-- Helper: scaling a dimension no larger than the maximal one stays at or
below 2048 after truncation. -/
lemma floor_scale_le (d m : ℚ) (hm : 0 < m) (hdm : d ≤ m) :
    (⌊d * (2048 / m)⌋).toNat ≤ 2048 := by
  have hs : (0:ℚ) ≤ 2048 / m := by positivity
  have hle : d * (2048 / m) ≤ m * (2048 / m) :=
    mul_le_mul_of_nonneg_right hdm hs
  rw [mul_div_cancel₀ _ (ne_of_gt hm)] at hle
  have h2 := Int.floor_le_floor hle
  have h3 : ⌊(2048:ℚ)⌋ = (2048:ℤ) := by norm_num
  rw [h3] at h2
  omega

/-- C9 (amended): an image whose larger dimension is at most 2048 keeps its
size; a larger image is scaled by 2048 over its larger dimension with
truncation, so its larger output dimension is exactly 2048, and the aspect
proportion w/h is preserved within 1 % provided the smaller output dimension
is at least 100 pixels — truncation can distort it beyond 1 % below that, as
the counterexample shows. -/
theorem resize_dims_amended (w h : ℕ) (hw : 0 < w) (hh : 0 < h) :
    (max w h ≤ 2048 → resizeDims w h = (w, h)) ∧
    (2048 < max w h →
      max (resizeDims w h).1 (resizeDims w h).2 = 2048 ∧
      (100 ≤ min (resizeDims w h).1 (resizeDims w h).2 →
        |((resizeDims w h).1 : ℚ) / ((resizeDims w h).2 : ℚ) /
          ((w : ℚ) / (h : ℚ)) - 1| ≤ 1/100)) := by
  constructor
  · intro hle
    rw [resizeDims, if_neg (by omega)]
  · intro hbig
    rw [resizeDims, if_pos hbig]
    simp only
    have hw0 : (0:ℚ) < (w:ℚ) := by exact_mod_cast hw
    have hh0 : (0:ℚ) < (h:ℚ) := by exact_mod_cast hh
    rcases le_total h w with hcase | hcase
    · have hcast : max (w:ℚ) (h:ℚ) = (w:ℚ) :=
        max_eq_left (by exact_mod_cast hcase)
      rw [hcast]
      have hout1 : (⌊(w : ℚ) * (2048 / (w : ℚ))⌋).toNat = 2048 :=
        floor_scale_max (w:ℚ) hw0
      have hout2le : (⌊(h : ℚ) * (2048 / (w : ℚ))⌋).toNat ≤ 2048 :=
        floor_scale_le (h:ℚ) (w:ℚ) hw0 (by exact_mod_cast hcase)
      rw [hout1]
      refine ⟨by omega, ?_⟩
      intro hmin
      set n := (⌊(h : ℚ) * (2048 / (w : ℚ))⌋).toNat with hn
      have h100 : 100 ≤ n := by omega
      have hkey := (floor_ratio_close ((h : ℚ) * (2048 / (w : ℚ))) n hn h100).1
      have hn0 : ((n:ℚ)) ≠ 0 := by
        have hnpos : (0:ℕ) < n := by omega
        positivity
      have heq : ((2048:ℕ) : ℚ) / (n:ℚ) / ((w:ℚ)/(h:ℚ)) =
          ((h : ℚ) * (2048 / (w : ℚ))) / (n:ℚ) := by
        field_simp
        ring
      rw [heq]
      exact hkey
    · have hcast : max (w:ℚ) (h:ℚ) = (h:ℚ) :=
        max_eq_right (by exact_mod_cast hcase)
      rw [hcast]
      have hout2 : (⌊(h : ℚ) * (2048 / (h : ℚ))⌋).toNat = 2048 :=
        floor_scale_max (h:ℚ) hh0
      have hout1le : (⌊(w : ℚ) * (2048 / (h : ℚ))⌋).toNat ≤ 2048 :=
        floor_scale_le (w:ℚ) (h:ℚ) hh0 (by exact_mod_cast hcase)
      rw [hout2]
      refine ⟨by omega, ?_⟩
      intro hmin
      set n := (⌊(w : ℚ) * (2048 / (h : ℚ))⌋).toNat with hn
      have h100 : 100 ≤ n := by omega
      have hkey := (floor_ratio_close ((w : ℚ) * (2048 / (h : ℚ))) n hn h100).2
      have hx0 : (0:ℚ) < (w : ℚ) * (2048 / (h : ℚ)) := by positivity
      have heq : (n:ℚ) / ((2048:ℕ) : ℚ) / ((w:ℚ)/(h:ℚ)) =
          (n:ℚ) / ((w : ℚ) * (2048 / (h : ℚ))) := by
        field_simp
        ring
      rw [heq]
      exact hkey

/-- Witness for C9 (amended) at the 4096 × 2048 image, which resizes to
2048 × 1024 with both output dimensions at least 100. -/
theorem resize_dims_amended_witness :
    (0:ℕ) < 4096 ∧ (0:ℕ) < 2048 ∧
    ((max 4096 2048 ≤ 2048 → resizeDims 4096 2048 = (4096, 2048)) ∧
      (2048 < max 4096 2048 →
        max (resizeDims 4096 2048).1 (resizeDims 4096 2048).2 = 2048 ∧
        (100 ≤ min (resizeDims 4096 2048).1 (resizeDims 4096 2048).2 →
          |((resizeDims 4096 2048).1 : ℚ) / ((resizeDims 4096 2048).2 : ℚ) /
            ((4096 : ℚ) / (2048 : ℚ)) - 1| ≤ 1/100))) :=
  ⟨by norm_num, by norm_num,
    resize_dims_amended 4096 2048 (by norm_num) (by norm_num)⟩

/-- Helper: adding a geometry under a node name absent from the scene only
appends the new node. -/
lemma addGeometry_of_not_mem {G : Type} (s : List (String × G)) (g : G)
    (n : String) (h : n ∉ s.map Prod.fst) :
    addGeometry s g n = s ++ [(n, g)] := by
  rw [addGeometry, List.filter_eq_self.mpr]
  intro p hp
  simp only [decide_eq_true_eq]
  intro hpn
  exact h (hpn ▸ List.mem_map_of_mem Prod.fst hp)

/-- Helper: when the re-added node names are distinct and fresh for the
accumulator, the composition loop just appends the pointwise-replaced
nodes. -/
lemma fold_addGeometry_eq {G : Type} (l : List (String × G)) (bodyName : String)
    (body : G) (acc : List (String × G))
    (hnodup : ((l.map (replaceBody bodyName body)).map Prod.fst).Nodup)
    (hfresh : ∀ p ∈ l, (replaceBody bodyName body p).1 ∉ acc.map Prod.fst) :
    l.foldl
      (fun acc p =>
        if p.1 = bodyName then addGeometry acc body "body"
        else addGeometry acc p.2 p.1)
      acc
      = acc ++ l.map (replaceBody bodyName body) := by
  induction l generalizing acc with
  | nil => simp
  | cons a t ih =>
    rw [List.map_cons, List.map_cons, List.nodup_cons] at hnodup
    have hstep :
        (if a.1 = bodyName then addGeometry acc body "body"
          else addGeometry acc a.2 a.1)
          = acc ++ [replaceBody bodyName body a] := by
      by_cases hab : a.1 = bodyName
      · rw [if_pos hab, replaceBody, if_pos hab]
        exact addGeometry_of_not_mem acc body "body"
          (by simpa [replaceBody, hab] using hfresh a (List.mem_cons_self a t))
      · rw [if_neg hab, replaceBody, if_neg hab]
        have h2 := addGeometry_of_not_mem acc a.2 a.1
          (by simpa [replaceBody, hab] using hfresh a (List.mem_cons_self a t))
        simpa using h2
    rw [List.foldl_cons, hstep, ih]
    · simp
    · exact hnodup.2
    · intro p hp
      simp only [List.map_append, List.mem_append]
      push_neg
      refine ⟨hfresh p (List.mem_cons_of_mem a hp), ?_⟩
      have hne : (replaceBody bodyName body p).1 ≠ (replaceBody bodyName body a).1 := by
        intro hcon
        exact hnodup.1 (hcon ▸
          List.mem_map_of_mem Prod.fst
            (List.mem_map_of_mem (replaceBody bodyName body) hp))
      simpa [replaceBody] using hne

/-- Helper: the names of the replaced nodes are the original names with the
body name mapped to "body". -/
lemma renamed_fst_eq {G : Type} (inScene : List (String × G)) (bodyName : String)
    (body : G) :
    (inScene.map (replaceBody bodyName body)).map Prod.fst
      = (inScene.map Prod.fst).map (fun n => if n = bodyName then "body" else n) := by
  rw [List.map_map, List.map_map]
  apply List.map_congr_left
  intro p _
  by_cases hp : p.1 = bodyName <;> simp [replaceBody, hp]

/-- Helper: replaced node names stay distinct when the input names are
distinct and no non-body node is called "body" or "cloth". -/
lemma renamed_fst_nodup {G : Type} (inScene : List (String × G)) (bodyName : String)
    (body : G)
    (hnodup : (inScene.map Prod.fst).Nodup)
    (hno : ∀ p ∈ inScene, p.1 ≠ bodyName → p.1 ≠ "body" ∧ p.1 ≠ "cloth") :
    ((inScene.map (replaceBody bodyName body)).map Prod.fst).Nodup := by
  have hno' : ∀ n ∈ inScene.map Prod.fst, n ≠ bodyName → n ≠ "body" ∧ n ≠ "cloth" := by
    intro n hn
    obtain ⟨p, hp, rfl⟩ := List.mem_map.mp hn
    exact hno p hp
  rw [renamed_fst_eq]
  apply List.Nodup.map_on _ hnodup
  intro n1 hn1 n2 hn2 heq
  by_cases h1 : n1 = bodyName <;> by_cases h2 : n2 = bodyName
  · rw [h1, h2]
  · rw [if_pos h1, if_neg h2] at heq
    exact absurd heq.symm ((hno' n2 hn2 h2).1)
  · rw [if_neg h1, if_pos h2] at heq
    exact absurd heq ((hno' n1 hn1 h1).1)
  · rwa [if_neg h1, if_neg h2] at heq

/-- Helper: "cloth" is not among the replaced node names when no non-body
node is called "cloth". -/
lemma cloth_not_mem_renamed {G : Type} (inScene : List (String × G))
    (bodyName : String) (body : G)
    (hno : ∀ p ∈ inScene, p.1 ≠ bodyName → p.1 ≠ "body" ∧ p.1 ≠ "cloth") :
    "cloth" ∉ (inScene.map (replaceBody bodyName body)).map Prod.fst := by
  intro hcon
  rw [List.map_map] at hcon
  obtain ⟨p, hp, hclo⟩ := List.mem_map.mp hcon
  by_cases hpb : p.1 = bodyName
  · simp only [Function.comp, replaceBody, if_pos hpb] at hclo
    exact absurd hclo (by decide)
  · simp only [Function.comp, replaceBody, if_neg hpb] at hclo
    exact (hno p hp hpb).2 hclo

/-- Helper: closed form of scene composition in the collision-free regime. -/
lemma composeScene_eq {G : Type} (inScene : List (String × G)) (bodyName : String)
    (body cloth : G)
    (hnodup : (inScene.map Prod.fst).Nodup)
    (hno : ∀ p ∈ inScene, p.1 ≠ bodyName → p.1 ≠ "body" ∧ p.1 ≠ "cloth") :
    composeScene inScene bodyName body cloth
      = inScene.map (replaceBody bodyName body) ++ [("cloth", cloth)] := by
  have hfold := fold_addGeometry_eq inScene bodyName body []
    (renamed_fst_nodup inScene bodyName body hnodup hno) (by simp)
  rw [composeScene, hfold, List.nil_append]
  exact addGeometry_of_not_mem _ cloth "cloth"
    (cloth_not_mem_renamed inScene bodyName body hno)

/-- C1, counterexample: composing a scene whose body node is named "mesh0"
yields a scene whose nodes are named "body" and "cloth" — the body node does
NOT keep its original name, because the source re-adds it under the fixed
node name "body". -/
theorem compose_scene_body_name_counterexample :
    composeScene [("mesh0", (1:ℕ))] "mesh0" 2 3 = [("body", 2), ("cloth", 3)] ∧
    "mesh0" ∉ (composeScene [("mesh0", (1:ℕ))] "mesh0" 2 3).map Prod.fst := by
  constructor
  · rfl
  · decide

/-- C1 (amended): in a collision-free input scene (distinct node names, no
non-body node named "body" or "cloth") every node other than the body node
appears unchanged in the output under its original name, and the body node is
replaced by the coerced body mesh under the FIXED node name "body" — so its
name is preserved only when it already was "body", and otherwise its original
name disappears from the output. -/
theorem compose_scene_body_renamed {G : Type} (inScene : List (String × G))
    (bodyName : String) (body cloth : G)
    (hnodup : (inScene.map Prod.fst).Nodup)
    (hno : ∀ p ∈ inScene, p.1 ≠ bodyName → p.1 ≠ "body" ∧ p.1 ≠ "cloth")
    (hmem : bodyName ∈ inScene.map Prod.fst) :
    (∀ p ∈ inScene, p.1 ≠ bodyName → p ∈ composeScene inScene bodyName body cloth) ∧
    ("body", body) ∈ composeScene inScene bodyName body cloth ∧
    (bodyName ≠ "body" → bodyName ≠ "cloth" →
      bodyName ∉ (composeScene inScene bodyName body cloth).map Prod.fst) := by
  have hceq := composeScene_eq inScene bodyName body cloth hnodup hno
  refine ⟨?_, ?_, ?_⟩
  · intro p hp hpb
    rw [hceq]
    apply List.mem_append_left
    have hrep : replaceBody bodyName body p = p := by rw [replaceBody, if_neg hpb]
    exact hrep ▸ List.mem_map_of_mem (replaceBody bodyName body) hp
  · rw [hceq]
    obtain ⟨p, hp, hpeq⟩ := List.mem_map.mp hmem
    apply List.mem_append_left
    have hrep : replaceBody bodyName body p = ("body", body) := by
      rw [replaceBody, if_pos hpeq]
    exact hrep ▸ List.mem_map_of_mem (replaceBody bodyName body) hp
  · intro hb hc hcon
    rw [hceq, List.map_append] at hcon
    rcases List.mem_append.mp hcon with hcon1 | hcon1
    · rw [List.map_map] at hcon1
      obtain ⟨p, hp, hpeq⟩ := List.mem_map.mp hcon1
      by_cases hpb : p.1 = bodyName
      · simp only [Function.comp, replaceBody, if_pos hpb] at hpeq
        exact hb hpeq.symm
      · simp only [Function.comp, replaceBody, if_neg hpb] at hpeq
        exact hpb hpeq
    · simp only [List.map_cons, List.map_nil, List.mem_singleton] at hcon1
      exact hc hcon1

/-- Witness for C1 (amended) on a two-node scene with body node "mesh0": the
non-body node ("arm", 4) survives unchanged, the body reappears as
("body", 2), and the name "mesh0" is gone. -/
theorem compose_scene_body_renamed_witness :
    (([("mesh0", (1:ℕ)), ("arm", 4)]).map Prod.fst).Nodup ∧
    (∀ p ∈ [("mesh0", (1:ℕ)), ("arm", 4)],
      p.1 ≠ "mesh0" → p.1 ≠ "body" ∧ p.1 ≠ "cloth") ∧
    "mesh0" ∈ ([("mesh0", (1:ℕ)), ("arm", 4)]).map Prod.fst ∧
    ((∀ p ∈ [("mesh0", (1:ℕ)), ("arm", 4)], p.1 ≠ "mesh0" →
        p ∈ composeScene [("mesh0", (1:ℕ)), ("arm", 4)] "mesh0" 2 3) ∧
      ("body", 2) ∈ composeScene [("mesh0", (1:ℕ)), ("arm", 4)] "mesh0" 2 3 ∧
      ("mesh0" ≠ "body" → "mesh0" ≠ "cloth" →
        "mesh0" ∉ (composeScene [("mesh0", (1:ℕ)), ("arm", 4)] "mesh0" 2 3).map
          Prod.fst)) :=
  ⟨by decide, by decide, by decide,
    compose_scene_body_renamed [("mesh0", (1:ℕ)), ("arm", 4)] "mesh0" 2 3
      (by decide) (by decide) (by decide)⟩

/-- C5, counterexample: when the input scene already has a node named "cloth"
(not the body), composition raises nothing — it is a total function — and the
existing "cloth" node is silently overwritten, so the output has as many
nodes as the input rather than one more. -/
theorem compose_scene_collision_counterexample :
    composeScene [("mesh0", (1:ℕ)), ("cloth", 2)] "mesh0" 10 20 =
      [("body", 10), ("cloth", 20)] ∧
    (composeScene [("mesh0", (1:ℕ)), ("cloth", 2)] "mesh0" 10 20).length =
      ([("mesh0", (1:ℕ)), ("cloth", 2)]).length := by
  constructor
  · rfl
  · rfl

/-- C5 (amended): scene composition never fails on a node-name collision —
the colliding node is silently overwritten, as the counterexample shows — and
in the collision-free regime (distinct input names, no non-body node named
"body" or "cloth") the output scene has exactly one more node than the input
and its node names are pairwise distinct. -/
theorem compose_scene_unique_nodes {G : Type} (inScene : List (String × G))
    (bodyName : String) (body cloth : G)
    (hnodup : (inScene.map Prod.fst).Nodup)
    (hno : ∀ p ∈ inScene, p.1 ≠ bodyName → p.1 ≠ "body" ∧ p.1 ≠ "cloth") :
    (composeScene inScene bodyName body cloth).length = inScene.length + 1 ∧
    ((composeScene inScene bodyName body cloth).map Prod.fst).Nodup := by
  have hceq := composeScene_eq inScene bodyName body cloth hnodup hno
  constructor
  · rw [hceq]
    simp
  · rw [hceq, List.map_append]
    simp only [List.map_cons, List.map_nil]
    refine List.Nodup.append
      (renamed_fst_nodup inScene bodyName body hnodup hno) (by simp) ?_
    intro x hx hx'
    simp only [List.mem_cons, List.not_mem_nil, or_false] at hx'
    subst hx'
    exact cloth_not_mem_renamed inScene bodyName body hno hx

/-- Witness for C5 (amended) on the two-node scene with body node "mesh0":
composition yields three nodes with distinct names. -/
theorem compose_scene_unique_nodes_witness :
    (([("mesh0", (1:ℕ)), ("arm", 4)]).map Prod.fst).Nodup ∧
    (∀ p ∈ [("mesh0", (1:ℕ)), ("arm", 4)],
      p.1 ≠ "mesh0" → p.1 ≠ "body" ∧ p.1 ≠ "cloth") ∧
    ((composeScene [("mesh0", (1:ℕ)), ("arm", 4)] "mesh0" 7 8).length =
        ([("mesh0", (1:ℕ)), ("arm", 4)]).length + 1 ∧
      ((composeScene [("mesh0", (1:ℕ)), ("arm", 4)] "mesh0" 7 8).map
          Prod.fst).Nodup) :=
  ⟨by decide, by decide,
    compose_scene_unique_nodes [("mesh0", (1:ℕ)), ("arm", 4)] "mesh0" 7 8
      (by decide) (by decide)⟩

/-- C10: the clothing geometry is added to the output scene under the
constant node name "cloth" for every garment type — the type only reaches the
metadata name `cloth_<type>` — so the output node names are identical for any
two garment types. -/
theorem cloth_node_name_constant (ty ty' : String) (m : ClothedMesh)
    (inScene : List (String × ClothedMesh)) (bodyName : String)
    (body : ClothedMesh) :
    (nameClothMesh m ty).meta = "cloth_" ++ ty ∧
    ("cloth", nameClothMesh m ty) ∈
      composeScene inScene bodyName body (nameClothMesh m ty) ∧
    (composeScene inScene bodyName body (nameClothMesh m ty)).map Prod.fst =
      (composeScene inScene bodyName body (nameClothMesh m ty')).map Prod.fst := by
  refine ⟨rfl, ?_, ?_⟩
  · rw [composeScene, addGeometry]
    exact List.mem_append_right _ (List.mem_singleton.mpr rfl)
  · rw [composeScene, composeScene, addGeometry, addGeometry]
    simp [List.map_append]

/-- C8: when the texture-visual constructor fails, the clothing geometry gets
the uniform flat vertex color (200, 200, 200, 255) — one entry per vertex, by
construction of the replicated color list — and the pipeline continues: the
degraded mesh still reaches the composed output scene as the "cloth" node,
with no error raised. -/
theorem texture_binding_fallback (reason : String) (cmVerts : List RVec3)
    (faces : List (ℕ × ℕ × ℕ)) (ty : String)
    (inScene : List (String × ClothedMesh)) (bodyName : String)
    (body : ClothedMesh) :
    (buildTexturedCloth (.failed reason) cmVerts faces).visual =
      .colored (List.replicate cmVerts.length (200, 200, 200, 255)) ∧
    ("cloth", nameClothMesh (buildTexturedCloth (.failed reason) cmVerts faces) ty) ∈
      composeScene inScene bodyName body
        (nameClothMesh (buildTexturedCloth (.failed reason) cmVerts faces) ty) := by
  constructor
  · rfl
  · rw [composeScene, addGeometry]
    exact List.mem_append_right _ (List.mem_singleton.mpr rfl)

/-- Helper: a left fold by min stays at or below its start value. -/
lemma foldl_min_le_init (t : List ℝ) (a : ℝ) : t.foldl min a ≤ a := by
  induction t generalizing a with
  | nil => simp
  | cons b t ih =>
    calc (b :: t).foldl min a = t.foldl min (min a b) := rfl
    _ ≤ min a b := ih (min a b)
    _ ≤ a := min_le_left a b

/-- Helper: a left fold by min is at or below every list element. -/
lemma foldl_min_le_mem (t : List ℝ) (a v : ℝ) (hv : v ∈ t) : t.foldl min a ≤ v := by
  induction t generalizing a with
  | nil => cases hv
  | cons b t ih =>
    rcases List.mem_cons.mp hv with rfl | hv'
    · calc (v :: t).foldl min a = t.foldl min (min a v) := rfl
      _ ≤ min a v := foldl_min_le_init t (min a v)
      _ ≤ v := min_le_right a v
    · exact ih (min a b) hv'

/-- Helper: a left fold by max stays at or above its start value. -/
lemma init_le_foldl_max (t : List ℝ) (a : ℝ) : a ≤ t.foldl max a := by
  induction t generalizing a with
  | nil => simp
  | cons b t ih =>
    calc a ≤ max a b := le_max_left a b
    _ ≤ t.foldl max (max a b) := ih (max a b)
    _ = (b :: t).foldl max a := rfl

/-- Helper: a left fold by max is at or above every list element. -/
lemma mem_le_foldl_max (t : List ℝ) (a v : ℝ) (hv : v ∈ t) : v ≤ t.foldl max a := by
  induction t generalizing a with
  | nil => cases hv
  | cons b t ih =>
    rcases List.mem_cons.mp hv with rfl | hv'
    · calc v ≤ max a v := le_max_right a v
      _ ≤ t.foldl max (max a v) := init_le_foldl_max t (max a v)
      _ = (v :: t).foldl max a := rfl
    · exact ih (max a b) hv'

/-- Helper: the list minimum bounds every element from below. -/
lemma listMin_le (l : List ℝ) (v : ℝ) (hv : v ∈ l) : listMin l ≤ v := by
  match l, hv with
  | a :: t, hv =>
    rcases List.mem_cons.mp hv with rfl | hv'
    · exact foldl_min_le_init t v
    · exact foldl_min_le_mem t a v hv'

/-- Helper: the list maximum bounds every element from above. -/
lemma le_listMax (l : List ℝ) (v : ℝ) (hv : v ∈ l) : v ≤ listMax l := by
  match l, hv with
  | a :: t, hv =>
    rcases List.mem_cons.mp hv with rfl | hv'
    · exact init_le_foldl_max t v
    · exact mem_le_foldl_max t a v hv'

/-- Helper: the two-argument arctangent always lands in [-π, π]. -/
lemma atan2_bounds (y x : ℝ) : -Real.pi ≤ atan2 y x ∧ atan2 y x ≤ Real.pi := by
  have hpi := Real.pi_pos
  have h1 := Real.arctan_lt_pi_div_two (y / x)
  have h2 := Real.neg_pi_div_two_lt_arctan (y / x)
  rw [atan2]
  split_ifs with hx hx2 hy hy1 hy2
  · constructor <;> linarith
  · have hdiv : y / x ≤ 0 := div_nonpos_iff.mpr (Or.inl ⟨hy, hx2.le⟩)
    have harc : Real.arctan (y / x) ≤ 0 := by
      have hmono := Real.arctan_strictMono.monotone hdiv
      rwa [Real.arctan_zero] at hmono
    constructor <;> linarith
  · have hdiv : 0 < y / x := div_pos_of_neg_of_neg (lt_of_not_le hy) hx2
    have harc : 0 < Real.arctan (y / x) := by
      have hmono := Real.arctan_strictMono hdiv
      rwa [Real.arctan_zero] at hmono
    constructor <;> linarith
  · constructor <;> linarith
  · constructor <;> linarith
  · constructor <;> linarith

/-- C6: the cylindrical UV projection produces exactly one (u, v) pair per
clothing-mesh vertex in the same order, each pair given by
`u = (atan2(z - cz, x - cx) + pi) / (2 pi)` and
`v = (y - v_min) / max(1e-6, v_max - v_min)` over the mesh's own vertical
extrema, and both coordinates always lie in [0, 1]. -/
theorem uv_projection_spec (verts : List RVec3) (cx cz : ℝ) :
    (uvProject verts cx cz).length = verts.length ∧
    ∀ (i : ℕ) (h : i < verts.length),
      (uvProject verts cx cz)[i]? = some (uvFormula verts cx cz verts[i]) ∧
      0 ≤ (uvFormula verts cx cz verts[i]).1 ∧
      (uvFormula verts cx cz verts[i]).1 ≤ 1 ∧
      0 ≤ (uvFormula verts cx cz verts[i]).2 ∧
      (uvFormula verts cx cz verts[i]).2 ≤ 1 := by
  have hpi := Real.pi_pos
  constructor
  · simp [uvProject]
  · intro i h
    refine ⟨?_, ?_, ?_, ?_, ?_⟩
    · rw [uvProject, List.getElem?_map, List.getElem?_eq_getElem h]
      rfl
    · have hb := atan2_bounds (verts[i].z - cz) (verts[i].x - cx)
      apply div_nonneg
      · linarith [hb.1]
      · linarith
    · have hb := atan2_bounds (verts[i].z - cz) (verts[i].x - cx)
      rw [uvFormula]
      apply div_le_one_of_le₀
      · linarith [hb.2]
      · linarith
    · have hymem : verts[i].y ∈ verts.map RVec3.y :=
        List.mem_map_of_mem RVec3.y (verts.getElem_mem h)
      have hmin := listMin_le (verts.map RVec3.y) verts[i].y hymem
      have hrange : (0:ℝ) < max (1 / 1000000)
          (listMax (verts.map RVec3.y) - listMin (verts.map RVec3.y)) :=
        lt_of_lt_of_le (by norm_num) (le_max_left _ _)
      exact div_nonneg (by linarith) hrange.le
    · have hymem : verts[i].y ∈ verts.map RVec3.y :=
        List.mem_map_of_mem RVec3.y (verts.getElem_mem h)
      have hmin := listMin_le (verts.map RVec3.y) verts[i].y hymem
      have hmax := le_listMax (verts.map RVec3.y) verts[i].y hymem
      have hrange : (0:ℝ) < max (1 / 1000000)
          (listMax (verts.map RVec3.y) - listMin (verts.map RVec3.y)) :=
        lt_of_lt_of_le (by norm_num) (le_max_left _ _)
      rw [uvFormula]
      apply div_le_one_of_le₀ _ hrange.le
      calc verts[i].y - listMin (verts.map RVec3.y)
          ≤ listMax (verts.map RVec3.y) - listMin (verts.map RVec3.y) := by linarith
      _ ≤ max (1 / 1000000)
            (listMax (verts.map RVec3.y) - listMin (verts.map RVec3.y)) :=
          le_max_right _ _

/-- Witness for C6 on the one-vertex mesh [(1, 0, 0)] with centre (0, 0),
index 0. -/
theorem uv_projection_spec_witness :
    0 < ([(⟨1, 0, 0⟩ : RVec3)]).length ∧
    ((uvProject [(⟨1, 0, 0⟩ : RVec3)] 0 0)[0]? =
        some (uvFormula [(⟨1, 0, 0⟩ : RVec3)] 0 0 ⟨1, 0, 0⟩) ∧
      0 ≤ (uvFormula [(⟨1, 0, 0⟩ : RVec3)] 0 0 ⟨1, 0, 0⟩).1 ∧
      (uvFormula [(⟨1, 0, 0⟩ : RVec3)] 0 0 ⟨1, 0, 0⟩).1 ≤ 1 ∧
      0 ≤ (uvFormula [(⟨1, 0, 0⟩ : RVec3)] 0 0 ⟨1, 0, 0⟩).2 ∧
      (uvFormula [(⟨1, 0, 0⟩ : RVec3)] 0 0 ⟨1, 0, 0⟩).2 ≤ 1) :=
  ⟨by norm_num,
    (uv_projection_spec [(⟨1, 0, 0⟩ : RVec3)] 0 0).2 0 (by norm_num)⟩

/-- C2: the claim fails on the code — with per-vertex normals available, the
offset step still displaces along the radial fallback direction with
magnitude 0.003·max(extent), because the source hands the 2-D array
`normals * offset` to `apply_translation`, which accepts only a single (3,)
vector and raises, and the handler silently switches to the fallback.  On the
one-vertex mesh [(3, 4, 0)] with normal (0, 0, 1), extent 100 and centre
(0, 0), the result is [(3.3, 4, 0)]: the vertex moved by (0.3, 0, 0), not by
the claimed 0.005·100 = 0.5 along its normal, which would give (3, 4, 0.5). -/
theorem offset_step_counterexample :
    offsetStep [⟨3, 4, 0⟩] [⟨0, 0, 1⟩] 100 0 0 = [⟨33/10, 4, 0⟩] ∧
    (⟨33/10, 4, 0⟩ : RVec3) ≠ ⟨3, 4, 1/2⟩ := by
  constructor
  · rw [offsetStep]
    simp only [applyTranslation, List.map_cons, List.map_nil]
    have hmin : listMin [(4:ℝ)] = 4 := rfl
    rw [hmin]
    have hs : Real.sqrt (((3:ℝ) - 0) ^ 2 + ((4:ℝ) - 4) ^ 2 + ((0:ℝ) - 0) ^ 2) = 3 := by
      rw [show ((3:ℝ) - 0) ^ 2 + ((4:ℝ) - 4) ^ 2 + ((0:ℝ) - 0) ^ 2 = 3 ^ 2 by norm_num]
      exact Real.sqrt_sq (by norm_num)
    rw [hs]
    rw [if_neg (by norm_num : (3:ℝ) ≠ 0)]
    norm_num
  · intro hcon
    have hx := congrArg RVec3.x hcon
    norm_num at hx

end VCBackend
